import Mathlib

/-!
Shallow embedding of the library data-quality pipeline
(`docker_library_cleaner/Library_Data_Pipeline_Docker.py`): the stage
functions `duplicateCheck`, `naCheck`, `dateCleaner`, `dataEnrich` and the
metrics finalisation `calculate_totals`, modelled over lists of rows.
Cell text is `List Char`; a missing cell (pandas `NaN`) is `none`.
-/

namespace LibPipeline

/-- Cell text, modelled as a list of characters. -/
abbrev Str := List Char

/-- A table cell: `none` models pandas `NaN`/`NaT`. -/
abbrev Cell := Option Str

/-- The double-quote character stripped by `dateCleaner`. -/
def quoteChar : Char := Char.ofNat 34

/-- The characters Python `str.strip()` removes (`str.isspace()`:
U+0009–U+000D, U+001C–U+001F, space, U+0085, U+00A0, U+1680,
U+2000–U+200A, U+2028, U+2029, U+202F, U+205F, U+3000). -/
def isSpaceChar (c : Char) : Bool :=
  let n := c.toNat
  (9 ≤ n ∧ n ≤ 13) || (28 ≤ n ∧ n ≤ 31) || n = 32 || n = 133 || n = 160 ||
    n = 0x1680 || (0x2000 ≤ n ∧ n ≤ 0x200A) || n = 0x2028 || n = 0x2029 ||
    n = 0x202F || n = 0x205F || n = 0x3000

/-- Python `str.strip()`: drop leading and trailing whitespace. -/
def trim (s : Str) : Str :=
  ((s.dropWhile isSpaceChar).reverse.dropWhile isSpaceChar).reverse

/-- `pandas.astype(str)`: a missing cell prints as the text `nan`. -/
def cellStr (c : Cell) : Str :=
  match c with
  | none => "nan".data
  | some s => s

/-- Does `p` occur at the start of `s`? (Pattern argument first.) -/
def startsW : Str → Str → Bool
  | [], _ => true
  | _ :: _, [] => false
  | p :: ps, c :: cs => if p = c then startsW ps cs else false

/-- Does `p` occur anywhere in `s` as a contiguous substring? -/
def containsSub (p : Str) : Str → Bool
  | [] => p.isEmpty
  | c :: cs => startsW p (c :: cs) || containsSub p cs

/-- Python `str.replace` specialised to a four-character pattern:
replace every non-overlapping occurrence of `p0p1p2p3`, scanning left to
right (`dateCleaner` only ever replaces the four-character year tokens). -/
def replace4 (p0 p1 p2 p3 : Char) (r : Str) : Str → Str
  | a :: b :: c :: d :: rest =>
    if a = p0 ∧ b = p1 ∧ c = p2 ∧ d = p3 then
      r ++ replace4 p0 p1 p2 p3 r rest
    else
      a :: replace4 p0 p1 p2 p3 r (b :: c :: d :: rest)
  | s => s

/-- Python `s.split(sep)` for a one-character separator. -/
def splitOnChar (sep : Char) : Str → List Str
  | [] => [[]]
  | c :: cs =>
    match splitOnChar sep cs with
    | [] => [[]]
    | h :: t => if c = sep then [] :: h :: t else (c :: h) :: t

/-- Rebuild the string `"{d}/{m}/{y}"` from split pieces. -/
def joinSlash : List Str → Str
  | [] => []
  | [x] => x
  | x :: xs => x ++ '/' :: joinSlash xs

/-- Is `c` an ASCII digit? -/
def isDigitChar (c : Char) : Bool := '0' ≤ c && c ≤ '9'

/-- Are all characters of `s` digits? -/
def allDigits (s : Str) : Bool := s.all isDigitChar

/-- Numeric value of a digit string. -/
def strVal (s : Str) : Nat :=
  s.foldl (fun a c => a * 10 + (c.toNat - 48)) 0

/-- A calendar date (year, month, day). -/
structure Date where
  y : Nat
  m : Nat
  d : Nat
deriving DecidableEq, Repr

/-- Gregorian leap year. -/
def isLeap (y : Nat) : Bool := y % 4 = 0 && (y % 100 ≠ 0 || y % 400 = 0)

/-- Days in a month of a given year. -/
def daysInMonth (y m : Nat) : Nat :=
  if m = 2 then (if isLeap y then 29 else 28)
  else if m = 4 ∨ m = 6 ∨ m = 9 ∨ m = 11 then 30
  else 31

/-- Is `y-m-d` a real calendar date? -/
def isValidDate (y m d : Nat) : Bool :=
  1 ≤ m && m ≤ 12 && 1 ≤ d && d ≤ daysInMonth y m

/-- Day count of a date from the proleptic Gregorian epoch; differences of
`dayNumber` model pandas `Timedelta.days` between two dates. -/
def dayNumber (dt : Date) : Nat :=
  365 * (dt.y - 1) + (dt.y - 1) / 4 - (dt.y - 1) / 100 + (dt.y - 1) / 400
    + (List.range (dt.m - 1)).foldl (fun a i => a + daysInMonth dt.y (i + 1)) 0
    + dt.d

/-- pandas `Timestamp` only represents dates in a bounded range
(`Timestamp.min` ≈ 1677-09-21, `Timestamp.max` ≈ 2262-04-11); dates outside
it coerce to `NaT` under `errors='coerce'`. -/
def inTsRange (dt : Date) : Bool :=
  dayNumber ⟨1677, 9, 22⟩ ≤ dayNumber dt && dayNumber dt ≤ dayNumber ⟨2262, 4, 11⟩

/-- Strict parse against the `%d/%m/%Y` pattern as
`pd.to_datetime(..., format='%d/%m/%Y', errors='coerce')` performs it:
exactly three `/`-separated all-digit fields, day and month of one or two
digits, year of exactly four digits, forming a valid in-range calendar
date; anything else yields `none` (`NaT`). -/
def parseDMY (s : Str) : Option Date :=
  match splitOnChar '/' s with
  | [ds, ms, ys] =>
    if allDigits ds && allDigits ms && allDigits ys
        && 1 ≤ ds.length && ds.length ≤ 2
        && 1 ≤ ms.length && ms.length ≤ 2
        && ys.length = 4 then
      let d := strVal ds
      let m := strVal ms
      let y := strVal ys
      if isValidDate y m d && inTsRange ⟨y, m, d⟩ then some ⟨y, m, d⟩ else none
    else none
  | _ => none

/-- First substitution pass of `dateCleaner`:
`.str.replace('2063', '2023')`. -/
def rep63 (s : Str) : Str := replace4 '2' '0' '6' '3' ['2', '0', '2', '3'] s

/-- Second substitution pass of `dateCleaner`:
`.str.replace('2062', '2023')`. -/
def rep62 (s : Str) : Str := replace4 '2' '0' '6' '2' ['2', '0', '2', '3'] s

/-- `dateCleaner`'s year-typo substitution: every occurrence of `2063`,
then every occurrence of `2062`, is replaced by `2023`. -/
def yearFix (s : Str) : Str := rep62 (rep63 s)

/-- `dateCleaner`'s `fix_impossible`: on a string of shape `d/m/y`, repair
the three specific impossible day/month combinations; any other string
(no slash, or not exactly three pieces) is returned unchanged. -/
def fix_impossible (s : Str) : Str :=
  match splitOnChar '/' s with
  | [d, m, y] =>
    let d := if d = "32".data ∧ m = "05".data then "31".data else d
    let d := if d = "31".data ∧ m = "02".data then "28".data else d
    let d := if d = "31".data ∧ m = "04".data then "30".data else d
    joinSlash [d, m, y]
  | _ => s

/-- The full text-repair chain `dateCleaner` applies to one date cell
before parsing: `astype(str)`, strip quotes, strip whitespace, normalise
`''`/`nan`/`NaN` to missing, substitute year typos, fix impossible days. -/
def repairDateText (c : Cell) : Cell :=
  let s := trim ((cellStr c).filter (fun ch => ch ≠ quoteChar))
  if s = [] ∨ s = "nan".data ∨ s = "NaN".data then none
  else some (fix_impossible (yearFix s))

/-- A raw checkout-events row as loaded from CSV: the four columns the
pipeline operates on (`Books`, `Customer ID`, `Book checkout`,
`Book Returned`); other columns pass through every stage untouched. -/
structure RawRow where
  books : Cell
  customer_id : Cell
  book_checkout : Cell
  book_returned : Cell
deriving DecidableEq, Repr

/-- The natural key `(Books, Customer ID, Book checkout)` used by
`duplicateCheck`; pandas treats `NaN` as equal to `NaN` here, which
`Option` equality models. -/
def rowKey (r : RawRow) : Cell × Cell × Cell :=
  (r.books, r.customer_id, r.book_checkout)

/-- `df.drop_duplicates(subset=key, keep='first')`: keep the first
occurrence, in original row order, of each natural key. -/
def dedupGo : List RawRow → List (Cell × Cell × Cell) → List RawRow
  | [], _ => []
  | r :: rest, seen =>
    if rowKey r ∈ seen then dedupGo rest seen
    else r :: dedupGo rest (rowKey r :: seen)

/-- `duplicateCheck`: remove duplicate records on the natural key,
keeping first occurrences. -/
def duplicateCheck (df : List RawRow) : List RawRow := dedupGo df []

/-- `naCheck`'s normalisation of `Books`:
`astype(str).str.strip()` then `.replace(['', 'nan', 'NaN'], np.nan)`. -/
def normTitle (c : Cell) : Cell :=
  let s := trim (cellStr c)
  if s = [] ∨ s = "nan".data ∨ s = "NaN".data then none else some s

/-- The ASCII whitespace that pandas' C number parser skips around a
numeral (`isspace_ascii`: space and U+0009–U+000D only — unlike Python
`str.strip()` it does not skip Unicode spaces). -/
def isAsciiWs (c : Char) : Bool :=
  c.toNat = 32 || (9 ≤ c.toNat ∧ c.toNat ≤ 13)

/-- Lower-case an ASCII letter, as C `strcasecmp` compares. -/
def asciiLower (c : Char) : Char :=
  if 'A' ≤ c ∧ c ≤ 'Z' then Char.ofNat (c.toNat + 32) else c

/-- Does pandas' `precise_xstrtod` (the C float parser behind
`pd.to_numeric` on strings) consume this entire text without error?
Grammar: optional ASCII whitespace, optional sign, ASCII digits with an
optional decimal point (at least one digit overall), an optional
`e`/`E` exponent with optional sign that must carry at least one digit,
then optional trailing ASCII whitespace.  The parser keeps 17
significant digits — further integer digits raise the effective
exponent, counted fraction digits lower it — and errors out (so the
value coerces to `NaN`) when the effective exponent exceeds 308;
underflow is not an error. -/
def precise_xstrtod_ok (s : Str) : Bool :=
  let t0 := s.dropWhile isAsciiWs
  let t1 := match t0 with
    | '-' :: r => r
    | '+' :: r => r
    | r => r
  let intPart := t1.takeWhile isDigitChar
  let r1 := t1.dropWhile isDigitChar
  let fracPart : Str := match r1 with
    | '.' :: r => r.takeWhile isDigitChar
    | _ => []
  let r2 : Str := match r1 with
    | '.' :: r => r.dropWhile isDigitChar
    | _ => r1
  let n1 : Nat := intPart.length
  let n2 : Nat := fracPart.length
  if n1 + n2 = 0 then false
  else
    let k1 : Nat := min n1 17
    let dec : Nat := min n2 (17 - k1)
    let baseExp : Int := ((n1 - k1 : Nat) : Int) - (dec : Int)
    let hasSci : Bool := match r2 with
      | c :: _ => c = 'e' ∨ c = 'E'
      | [] => false
    if hasSci then
      let r3 := r2.tail
      let negE : Bool := match r3 with
        | '-' :: _ => true
        | _ => false
      let r4 := match r3 with
        | '-' :: r => r
        | '+' :: r => r
        | r => r
      let expPart := r4.takeWhile isDigitChar
      let r5 := r4.dropWhile isDigitChar
      if expPart.length = 0 then false
      else
        let eTot : Int :=
          baseExp + (if negE then -(strVal expPart : Int) else (strVal expPart : Int))
        decide (eTot ≤ 308) && (r5.dropWhile isAsciiWs).isEmpty
    else
      decide (baseExp ≤ 308) && (r2.dropWhile isAsciiWs).isEmpty

/-- Does `pd.to_numeric(..., errors='coerce')` turn this text into a
(non-missing) number?  `floatify` first runs `precise_xstrtod`; on
failure it still accepts exactly the tokens `inf`, `+inf`, `-inf`
case-insensitively (`strcasecmp`), and anything else coerces to
missing. -/
def isNumericText (s : Str) : Bool :=
  precise_xstrtod_ok s ||
    s.map asciiLower = "inf".data ||
    s.map asciiLower = "+inf".data ||
    s.map asciiLower = "-inf".data

/-- `pd.to_numeric(col, errors='coerce')` on a cell: missing stays
missing, non-numeric text coerces to missing, numeric text is kept
(only its presence is consumed downstream). -/
def toNumericCell (c : Cell) : Cell :=
  c.bind (fun s => if isNumericText s then some s else none)

/-- The column rewrites `naCheck` applies to every row before filtering. -/
def naRow (r : RawRow) : RawRow :=
  { r with books := normTitle r.books, customer_id := toNumericCell r.customer_id }

/-- `naCheck`: normalise the two key columns, then drop exactly the rows
in which both `Books` and `Customer ID` are missing. -/
def naCheck (df : List RawRow) : List RawRow :=
  (df.map naRow).filter (fun r => !(r.books.isNone && r.customer_id.isNone))

/-- A row after `dateCleaner`: typed dates plus the `_raw` audit copies
of the repaired date text. -/
structure CleanRow where
  books : Cell
  customer_id : Cell
  book_checkout : Option Date
  book_returned : Option Date
  book_checkout_raw : Cell
  book_returned_raw : Cell
deriving DecidableEq, Repr

/-- The per-row action of `dateCleaner`: repair both date texts, strip
the title, store the repaired text in the `_raw` audit columns, and
parse the repaired text strictly as `%d/%m/%Y` (failures become `none`). -/
def cleanRow (r : RawRow) : CleanRow :=
  let coTxt := repairDateText r.book_checkout
  let reTxt := repairDateText r.book_returned
  { books := some (trim (cellStr r.books)),
    customer_id := r.customer_id,
    book_checkout := coTxt.bind parseDMY,
    book_returned := reTxt.bind parseDMY,
    book_checkout_raw := coTxt,
    book_returned_raw := reTxt }

/-- `dateCleaner`: clean and parse the date fields of every row;
no row is ever dropped. -/
def dateCleaner (df : List RawRow) : List CleanRow := df.map cleanRow

/-- The date fields of a row entering `dataEnrich`. -/
structure DateRow where
  book_checkout : Option Date
  book_returned : Option Date
deriving DecidableEq, Repr

/-- Advance a date by one day. -/
def nextDay (dt : Date) : Date :=
  if dt.d < daysInMonth dt.y dt.m then ⟨dt.y, dt.m, dt.d + 1⟩
  else if dt.m < 12 then ⟨dt.y, dt.m + 1, 1⟩
  else ⟨dt.y + 1, 1, 1⟩

/-- Advance a date by `n` days (models `+ pd.Timedelta(days=n)`). -/
def addDays : Nat → Date → Date
  | 0, dt => dt
  | n + 1, dt => addDays n (nextDay dt)

/-- Digit character for a value below ten. -/
def digitChar : Nat → Char
  | 0 => '0'
  | 1 => '1'
  | 2 => '2'
  | 3 => '3'
  | 4 => '4'
  | 5 => '5'
  | 6 => '6'
  | 7 => '7'
  | 8 => '8'
  | _ => '9'

/-- Decimal digits of `n` (fuelled; eight digits suffice here). -/
def natDigitsAux : Nat → Nat → Str
  | 0, _ => []
  | _ + 1, 0 => []
  | fuel + 1, n + 1 => natDigitsAux fuel ((n + 1) / 10) ++ [digitChar ((n + 1) % 10)]

/-- `n` printed in decimal, zero-padded to width `w`. -/
def padNum (w n : Nat) : Str :=
  let ds := if n = 0 then ['0'] else natDigitsAux 8 n
  List.replicate (w - ds.length) '0' ++ ds

/-- `strftime('%Y-%m-%d')`. -/
def isoFormat (dt : Date) : Str :=
  padNum 4 dt.y ++ '-' :: padNum 2 dt.m ++ '-' :: padNum 2 dt.d

/-- A row after `dataEnrich`: the (possibly swapped) dates plus the seven
calculated/flag columns the stage adds. -/
structure EnrichedRow where
  book_checkout : Option Date
  book_returned : Option Date
  loan_duration : Option Int
  negative_duration_flag : Bool
  checkout_date_iso : Option Str
  return_date_iso : Option Str
  expected_return_date : Option Date
  overdue_days : Option Int
  is_overdue : Bool
deriving DecidableEq, Repr

/-- The names of the columns `dataEnrich` adds to the table (it adds
exactly these seven). -/
def dataEnrichAddedColumns : List String :=
  ["loan_duration", "negative_duration_flag", "checkout_date_iso",
   "return_date_iso", "expected_return_date", "overdue_days", "is_overdue"]

/-- The per-row action of `dataEnrich`, with the processing-time date
`today` (`pd.Timestamp('today').normalize()`) passed explicitly:
compute the loan duration, swap the dates and recompute when the
duration is negative with both dates present, flag any remaining
negative duration, and derive the ISO texts, expected return date,
overdue days and overdue flag.  (The source recomputes the duration
column only when at least one row swapped; unswapped rows get the same
value back, so the per-row recomputation below is equivalent.) -/
def enrichRow (today : Date) (r : DateRow) : EnrichedRow :=
  let ld0 : Option Int :=
    match r.book_checkout, r.book_returned with
    | some a, some b => some ((dayNumber b : Int) - dayNumber a)
    | _, _ => none
  let neg0 : Bool :=
    match ld0 with
    | some v => v < 0
    | none => false
  let doSwap : Bool := neg0 && r.book_checkout.isSome && r.book_returned.isSome
  let co := if doSwap then r.book_returned else r.book_checkout
  let ret := if doSwap then r.book_checkout else r.book_returned
  let ld : Option Int :=
    match co, ret with
    | some a, some b => some ((dayNumber b : Int) - dayNumber a)
    | _, _ => none
  let expected : Option Date := co.map (addDays 14)
  let overdue : Option Int :=
    match ret, expected with
    | some rr, some e => some ((dayNumber rr : Int) - dayNumber e)
    | none, some e => some ((dayNumber today : Int) - dayNumber e)
    | _, _ => none
  { book_checkout := co,
    book_returned := ret,
    loan_duration := ld,
    negative_duration_flag :=
      (match ld with
       | some v => decide (v < 0)
       | none => false),
    checkout_date_iso := co.map isoFormat,
    return_date_iso := ret.map isoFormat,
    expected_return_date := expected,
    overdue_days := overdue,
    is_overdue :=
      (match overdue with
       | some v => decide (0 < v)
       | none => false) }

/-- `dataEnrich`: enrich every row; no row is ever dropped. -/
def dataEnrich (today : Date) (df : List DateRow) : List EnrichedRow :=
  df.map (enrichRow today)

/-- The two fields `DEMetrics.calculate_totals` derives. -/
structure Totals where
  total_dropped : Int
  retention_rate : ℚ
deriving DecidableEq, Repr

/-- `DEMetrics.calculate_totals`: total drop count and retention rate,
guarding the zero-initial-rows case instead of dividing by zero. -/
def calculate_totals (initial_rows final_rows : Nat) : Totals :=
  { total_dropped := (initial_rows : Int) - (final_rows : Int),
    retention_rate :=
      if initial_rows > 0 then (final_rows : ℚ) / (initial_rows : ℚ) * 100 else 0 }

/-- Spec-side characterisation of a missing book title (claim C6):
null, empty, whitespace-only, or the tokens `nan`/`NaN`. -/
def titleMissingSpec (c : Cell) : Bool :=
  match c with
  | none => true
  | some s => decide (trim s = [] ∨ trim s = "nan".data ∨ trim s = "NaN".data)

/-- Spec-side characterisation of a missing customer id (claim C6):
null or not coercible to a number. -/
def custMissingSpec (c : Cell) : Bool :=
  match c with
  | none => true
  | some s => !isNumericText s

end LibPipeline

namespace LibPipeline

/-! ### Helper lemmas -/

theorem mem_of_mem_dedupGo (l : List RawRow) :
    ∀ seen r, r ∈ dedupGo l seen → r ∈ l ∧ rowKey r ∉ seen := by
  induction l with
  | nil => intro seen r h; simp [dedupGo] at h
  | cons x rest ih =>
    intro seen r h
    simp only [dedupGo] at h
    by_cases hk : rowKey x ∈ seen
    · rw [if_pos hk] at h
      obtain ⟨h1, h2⟩ := ih seen r h
      exact ⟨List.mem_cons_of_mem _ h1, h2⟩
    · rw [if_neg hk] at h
      rcases List.mem_cons.mp h with h | h
      · subst h; exact ⟨List.mem_cons_self _ _, hk⟩
      · obtain ⟨h1, h2⟩ := ih _ r h
        exact ⟨List.mem_cons_of_mem _ h1, fun hc => h2 (List.mem_cons_of_mem _ hc)⟩

theorem dedupGo_key_pairwise (l : List RawRow) :
    ∀ seen, (dedupGo l seen).Pairwise (fun a b => rowKey a ≠ rowKey b) := by
  induction l with
  | nil => intro seen; simp [dedupGo]
  | cons x rest ih =>
    intro seen
    simp only [dedupGo]
    split
    · exact ih seen
    · refine List.Pairwise.cons ?_ (ih _)
      intro b hb he
      have h2 := (mem_of_mem_dedupGo rest _ b hb).2
      exact h2 (he ▸ List.mem_cons_self _ _)

theorem dedupGo_eq_self (l : List RawRow) :
    ∀ seen, l.Pairwise (fun a b => rowKey a ≠ rowKey b) →
      (∀ r ∈ l, rowKey r ∉ seen) → dedupGo l seen = l := by
  induction l with
  | nil => intro seen _ _; rfl
  | cons x rest ih =>
    intro seen hp hs
    have hx : rowKey x ∉ seen := hs x (List.mem_cons_self _ _)
    simp only [dedupGo, if_neg hx]
    congr 1
    refine ih _ (List.Pairwise.of_cons hp) ?_
    intro r hr hc
    rcases List.mem_cons.mp hc with h | h
    · exact (List.pairwise_cons.mp hp).1 r hr h.symm
    · exact hs r (List.mem_cons_of_mem _ hr) h

theorem dedupGo_length (l : List RawRow) :
    ∀ seen, (dedupGo l seen).length ≤ l.length := by
  induction l with
  | nil => intro seen; simp [dedupGo]
  | cons x rest ih =>
    intro seen
    simp only [dedupGo]
    split
    · exact Nat.le_succ_of_le (ih _)
    · simpa using Nat.succ_le_succ (ih _)

theorem normTitle_isNone (c : Cell) : (normTitle c).isNone = titleMissingSpec c := by
  cases c with
  | none => decide
  | some s =>
    simp only [normTitle, titleMissingSpec, cellStr]
    split
    · simp_all
    · simp_all

theorem toNumericCell_isNone (c : Cell) :
    (toNumericCell c).isNone = custMissingSpec c := by
  cases c with
  | none => rfl
  | some s =>
    simp only [toNumericCell, custMissingSpec, Option.bind]
    split
    · simp_all
    · simp_all

theorem filterMap_if_none (c : RawRow → Bool) (f : RawRow → RawRow) (l : List RawRow) :
    l.filterMap (fun r => if c r then none else some (f r))
      = (l.filter (fun r => !(c r))).map f := by
  induction l with
  | nil => rfl
  | cons x xs ih =>
    cases hv : c x <;> simp [List.filterMap_cons, List.filter_cons, hv, ih]

theorem enrichRow_loan_nonneg (today : Date) (r : DateRow)
    (hco : (enrichRow today r).book_checkout.isSome = true)
    (hre : (enrichRow today r).book_returned.isSome = true) :
    ∃ v, (enrichRow today r).loan_duration = some v ∧ 0 ≤ v := by
  rcases r with ⟨co, ret⟩
  cases co with
  | none => cases ret <;> simp [enrichRow] at hco
  | some a =>
    cases ret with
    | none => simp [enrichRow] at hre
    | some b =>
      by_cases h : (dayNumber b : Int) - dayNumber a < 0
      · exact ⟨(dayNumber a : Int) - dayNumber b, by simp [enrichRow, h], by omega⟩
      · exact ⟨(dayNumber b : Int) - dayNumber a, by simp [enrichRow, h], by omega⟩

theorem enrichRow_overdue_none (today : Date) (r : DateRow) :
    ((enrichRow today r).overdue_days = none ↔ (enrichRow today r).book_checkout = none) ∧
    ((enrichRow today r).overdue_days = none → (enrichRow today r).is_overdue = false) := by
  rcases r with ⟨co, ret⟩
  cases co with
  | none => cases ret <;> simp [enrichRow]
  | some a =>
    cases ret with
    | none => simp [enrichRow]
    | some b =>
      by_cases h : (dayNumber b : Int) - dayNumber a < 0 <;> simp [enrichRow, h]

theorem startsW_cons_true {p c : Char} {ps cs : Str}
    (h : startsW (p :: ps) (c :: cs) = true) : p = c ∧ startsW ps cs = true := by
  simp only [startsW] at h
  split at h
  · next hpc => exact ⟨hpc, h⟩
  · exact Bool.noConfusion h

theorem containsSub_cons {p : Str} (x : Char) {t : Str} (h : containsSub p t = true) :
    containsSub p (x :: t) = true := by
  simp only [containsSub, h, Bool.or_true]

theorem startsW3_rep63 : ∀ u : Str, startsW ['3'] (rep63 u) = true → startsW ['3'] u = true
  | [] => fun h => h
  | [_] => fun h => h
  | [_, _] => fun h => h
  | [_, _, _] => fun h => h
  | a :: b :: c :: d :: rest => fun h => by
    simp only [rep63, replace4] at h
    split at h
    · exact Bool.noConfusion h
    · exact h

theorem startsW63_rep63 : ∀ u : Str,
    startsW ['6', '3'] (rep63 u) = true → startsW ['6', '3'] u = true
  | [] => fun h => h
  | [_] => fun h => h
  | [_, _] => fun h => h
  | [_, _, _] => fun h => h
  | a :: b :: c :: d :: rest => fun h => by
    simp only [rep63, replace4] at h
    split at h
    · exact Bool.noConfusion h
    · simp only [startsW] at h ⊢
      split at h
      · next ha => rw [if_pos ha]; exact startsW3_rep63 _ h
      · exact Bool.noConfusion h

theorem startsW063_rep63 : ∀ u : Str,
    startsW ['0', '6', '3'] (rep63 u) = true → startsW ['0', '6', '3'] u = true
  | [] => fun h => h
  | [_] => fun h => h
  | [_, _] => fun h => h
  | [_, _, _] => fun h => h
  | a :: b :: c :: d :: rest => fun h => by
    simp only [rep63, replace4] at h
    split at h
    · exact Bool.noConfusion h
    · simp only [startsW] at h ⊢
      split at h
      · next ha => rw [if_pos ha]; exact startsW63_rep63 _ h
      · exact Bool.noConfusion h

theorem contains63_rep63 : ∀ s : Str, containsSub ['2', '0', '6', '3'] (rep63 s) = false
  | [] => rfl
  | [a] => by simp [rep63, replace4, containsSub, startsW]
  | [a, b] => by simp [rep63, replace4, containsSub, startsW]
  | [a, b, c] => by simp [rep63, replace4, containsSub, startsW]
  | a :: b :: c :: d :: rest => by
    simp only [rep63, replace4]
    split
    · next hc =>
      show containsSub ['2', '0', '6', '3'] (rep63 rest) = false
      exact contains63_rep63 rest
    · next hc =>
      have ih := contains63_rep63 (b :: c :: d :: rest)
      simp only [containsSub]
      rw [show containsSub ['2', '0', '6', '3']
            (replace4 '2' '0' '6' '3' ['2', '0', '2', '3'] (b :: c :: d :: rest))
          = containsSub ['2', '0', '6', '3'] (rep63 (b :: c :: d :: rest)) from rfl, ih,
        Bool.or_false]
      cases hs : startsW ['2', '0', '6', '3']
          (a :: replace4 '2' '0' '6' '3' ['2', '0', '2', '3'] (b :: c :: d :: rest)) with
      | false => rfl
      | true =>
        exfalso
        obtain ⟨ha, hs1⟩ := startsW_cons_true hs
        have hs2 := startsW063_rep63 (b :: c :: d :: rest) hs1
        obtain ⟨hb, hs3⟩ := startsW_cons_true hs2
        obtain ⟨hcq, hs4⟩ := startsW_cons_true hs3
        obtain ⟨hd, _⟩ := startsW_cons_true hs4
        exact hc ⟨ha.symm, hb.symm, hcq.symm, hd.symm⟩

theorem startsW2_rep62 : ∀ u : Str, startsW ['2'] (rep62 u) = true → startsW ['2'] u = true
  | [] => fun h => h
  | [_] => fun h => h
  | [_, _] => fun h => h
  | [_, _, _] => fun h => h
  | a :: b :: c :: d :: rest => fun h => by
    simp only [rep62, replace4] at h
    split at h
    · next hc => obtain ⟨ha, -, -, -⟩ := hc; subst ha; rfl
    · exact h

theorem startsW62_rep62 : ∀ u : Str,
    startsW ['6', '2'] (rep62 u) = true → startsW ['6', '2'] u = true
  | [] => fun h => h
  | [_] => fun h => h
  | [_, _] => fun h => h
  | [_, _, _] => fun h => h
  | a :: b :: c :: d :: rest => fun h => by
    simp only [rep62, replace4] at h
    split at h
    · exact Bool.noConfusion h
    · simp only [startsW] at h ⊢
      split at h
      · next ha => rw [if_pos ha]; exact startsW2_rep62 _ h
      · exact Bool.noConfusion h

theorem startsW062_rep62 : ∀ u : Str,
    startsW ['0', '6', '2'] (rep62 u) = true → startsW ['0', '6', '2'] u = true
  | [] => fun h => h
  | [_] => fun h => h
  | [_, _] => fun h => h
  | [_, _, _] => fun h => h
  | a :: b :: c :: d :: rest => fun h => by
    simp only [rep62, replace4] at h
    split at h
    · exact Bool.noConfusion h
    · simp only [startsW] at h ⊢
      split at h
      · next ha => rw [if_pos ha]; exact startsW62_rep62 _ h
      · exact Bool.noConfusion h

theorem contains62_rep62 : ∀ s : Str, containsSub ['2', '0', '6', '2'] (rep62 s) = false
  | [] => rfl
  | [a] => by simp [rep62, replace4, containsSub, startsW]
  | [a, b] => by simp [rep62, replace4, containsSub, startsW]
  | [a, b, c] => by simp [rep62, replace4, containsSub, startsW]
  | a :: b :: c :: d :: rest => by
    simp only [rep62, replace4]
    split
    · next hc =>
      show containsSub ['2', '0', '6', '2'] (rep62 rest) = false
      exact contains62_rep62 rest
    · next hc =>
      have ih := contains62_rep62 (b :: c :: d :: rest)
      simp only [containsSub]
      rw [show containsSub ['2', '0', '6', '2']
            (replace4 '2' '0' '6' '2' ['2', '0', '2', '3'] (b :: c :: d :: rest))
          = containsSub ['2', '0', '6', '2'] (rep62 (b :: c :: d :: rest)) from rfl, ih,
        Bool.or_false]
      cases hs : startsW ['2', '0', '6', '2']
          (a :: replace4 '2' '0' '6' '2' ['2', '0', '2', '3'] (b :: c :: d :: rest)) with
      | false => rfl
      | true =>
        exfalso
        obtain ⟨ha, hs1⟩ := startsW_cons_true hs
        have hs2 := startsW062_rep62 (b :: c :: d :: rest) hs1
        obtain ⟨hb, hs3⟩ := startsW_cons_true hs2
        obtain ⟨hcq, hs4⟩ := startsW_cons_true hs3
        obtain ⟨hd, _⟩ := startsW_cons_true hs4
        exact hc ⟨ha.symm, hb.symm, hcq.symm, hd.symm⟩

theorem startsW3_rep62 : ∀ u : Str, startsW ['3'] (rep62 u) = true → startsW ['3'] u = true
  | [] => fun h => h
  | [_] => fun h => h
  | [_, _] => fun h => h
  | [_, _, _] => fun h => h
  | a :: b :: c :: d :: rest => fun h => by
    simp only [rep62, replace4] at h
    split at h
    · exact Bool.noConfusion h
    · exact h

theorem startsW63_rep62 : ∀ u : Str,
    startsW ['6', '3'] (rep62 u) = true → startsW ['6', '3'] u = true
  | [] => fun h => h
  | [_] => fun h => h
  | [_, _] => fun h => h
  | [_, _, _] => fun h => h
  | a :: b :: c :: d :: rest => fun h => by
    simp only [rep62, replace4] at h
    split at h
    · exact Bool.noConfusion h
    · simp only [startsW] at h ⊢
      split at h
      · next ha => rw [if_pos ha]; exact startsW3_rep62 _ h
      · exact Bool.noConfusion h

theorem startsW063_rep62 : ∀ u : Str,
    startsW ['0', '6', '3'] (rep62 u) = true → startsW ['0', '6', '3'] u = true
  | [] => fun h => h
  | [_] => fun h => h
  | [_, _] => fun h => h
  | [_, _, _] => fun h => h
  | a :: b :: c :: d :: rest => fun h => by
    simp only [rep62, replace4] at h
    split at h
    · exact Bool.noConfusion h
    · simp only [startsW] at h ⊢
      split at h
      · next ha => rw [if_pos ha]; exact startsW63_rep62 _ h
      · exact Bool.noConfusion h

theorem contains63_rep62 : ∀ u : Str,
    containsSub ['2', '0', '6', '3'] (rep62 u) = true →
    containsSub ['2', '0', '6', '3'] u = true
  | [] => fun h => h
  | [a] => fun h => h
  | [a, b] => fun h => h
  | [a, b, c] => fun h => h
  | a :: b :: c :: d :: rest => fun h => by
    simp only [rep62, replace4] at h
    split at h
    · next hc =>
      have h2 : containsSub ['2', '0', '6', '3'] (rep62 rest) = true := h
      have h3 := contains63_rep62 rest h2
      exact containsSub_cons a (containsSub_cons b (containsSub_cons c
        (containsSub_cons d h3)))
    · next hc =>
      simp only [containsSub] at h
      rcases Bool.or_eq_true_iff.mp h with hl | hr
      · obtain ⟨ha, hs1⟩ := startsW_cons_true hl
        have hs2 := startsW063_rep62 (b :: c :: d :: rest) hs1
        obtain ⟨hb, hs3⟩ := startsW_cons_true hs2
        obtain ⟨hcq, hs4⟩ := startsW_cons_true hs3
        obtain ⟨hd, _⟩ := startsW_cons_true hs4
        subst ha; subst hb; subst hcq; subst hd
        rfl
      · have h2 : containsSub ['2', '0', '6', '3'] (rep62 (b :: c :: d :: rest)) = true := hr
        have h3 := contains63_rep62 (b :: c :: d :: rest) h2
        exact containsSub_cons a h3

theorem splitOnChar_ne_nil (sep : Char) (s : Str) : splitOnChar sep s ≠ [] := by
  cases s with
  | nil => simp [splitOnChar]
  | cons c cs =>
    simp only [splitOnChar]
    cases hE : splitOnChar sep cs with
    | nil => simp
    | cons h1 t =>
      show ¬(if c = sep then [] :: h1 :: t else (c :: h1) :: t) = []
      split <;> simp

theorem joinSlash_splitOnChar (s : Str) : joinSlash (splitOnChar '/' s) = s := by
  induction s with
  | nil => rfl
  | cons c cs ih =>
    simp only [splitOnChar]
    cases hsp : splitOnChar '/' cs with
    | nil => exact absurd hsp (splitOnChar_ne_nil _ _)
    | cons h t =>
      rw [hsp] at ih
      show joinSlash (if c = '/' then [] :: h :: t else (c :: h) :: t) = c :: cs
      by_cases hc : c = '/'
      · subst hc
        rw [if_pos rfl]
        show joinSlash ([] :: h :: t) = '/' :: cs
        cases t with
        | nil => simpa [joinSlash] using ih
        | cons t0 ts => simpa [joinSlash] using ih
      · rw [if_neg hc]
        cases t with
        | nil =>
          have hh : h = cs := ih
          simpa [joinSlash] using hh
        | cons t0 ts =>
          show joinSlash ((c :: h) :: t0 :: ts) = c :: cs
          have : joinSlash (h :: t0 :: ts) = cs := ih
          simp only [joinSlash, List.cons_append] at this ⊢
          rw [this]

/-! ### Claim theorems -/

/-- Claim C1: after `dataEnrich`, every output row in which both the
checkout and the return date are present has a non-negative
`loan_duration` — a row whose initially computed duration is negative
with both dates present has its dates swapped and its duration
recomputed, so no negative duration with both dates present survives. -/
theorem C1_enrich_duration_nonneg (today : Date) (df : List DateRow) (r : EnrichedRow)
    (hr : r ∈ dataEnrich today df)
    (hco : r.book_checkout.isSome = true)
    (hre : r.book_returned.isSome = true) :
    ∃ v, r.loan_duration = some v ∧ 0 ≤ v := by
  obtain ⟨r0, _, rfl⟩ := List.mem_map.mp hr
  exact enrichRow_loan_nonneg today r0 hco hre

/-- Witness for C1 at the concrete swapped row
(checkout 2023-03-24, return 2023-03-21). -/
theorem C1_enrich_duration_nonneg_witness :
    ∃ v, (enrichRow ⟨2024, 1, 1⟩ ⟨some ⟨2023, 3, 24⟩, some ⟨2023, 3, 21⟩⟩).loan_duration
          = some v ∧ 0 ≤ v :=
  C1_enrich_duration_nonneg ⟨2024, 1, 1⟩ [⟨some ⟨2023, 3, 24⟩, some ⟨2023, 3, 21⟩⟩] _
    (List.Mem.head _) (by decide) (by decide)

/-- Claim C2: `dateCleaner` and `dataEnrich` preserve the row count
exactly, while `duplicateCheck` and `naCheck` return at most as many
rows as their input — row count can strictly decrease only at those
two stages. -/
theorem C2_row_counts (df : List RawRow) (df2 : List DateRow) (today : Date) :
    (dateCleaner df).length = df.length ∧
    (dataEnrich today df2).length = df2.length ∧
    (duplicateCheck df).length ≤ df.length ∧
    (naCheck df).length ≤ df.length := by
  refine ⟨by simp [dateCleaner], by simp [dataEnrich], dedupGo_length df [], ?_⟩
  have h1 : (naCheck df).length ≤ (df.map naRow).length :=
    List.length_filter_le _ _
  simpa using h1

/-- Claim C3 (counterexample): for the row with checkout 2023-03-24 and
return 2023-03-21, enrichment does give duration 3 and swapped dates,
but the table carries no `duration_was_swapped` column at all
(`dataEnrich` adds exactly seven columns and that is not one of them),
so the claim as stated is false. -/
theorem C3_counterexample :
    ¬ ((enrichRow ⟨2024, 1, 1⟩ ⟨some ⟨2023, 3, 24⟩, some ⟨2023, 3, 21⟩⟩).loan_duration
          = some 3 ∧
       "duration_was_swapped" ∈ dataEnrichAddedColumns ∧
       (enrichRow ⟨2024, 1, 1⟩ ⟨some ⟨2023, 3, 24⟩, some ⟨2023, 3, 21⟩⟩).book_checkout
          = some ⟨2023, 3, 21⟩ ∧
       (enrichRow ⟨2024, 1, 1⟩ ⟨some ⟨2023, 3, 24⟩, some ⟨2023, 3, 21⟩⟩).book_returned
          = some ⟨2023, 3, 24⟩) := by
  decide

/-- Claim C3 (amended): for a row entering `dataEnrich` with checkout
2023-03-24 and return 2023-03-21, the enriched row has loan duration 3
and its stored dates swapped relative to the input, and its
`negative_duration_flag` is `false`; no per-row `duration_was_swapped`
column exists — the swap count is only reported in aggregate. -/
theorem C3_swap_amended :
    (enrichRow ⟨2024, 1, 1⟩ ⟨some ⟨2023, 3, 24⟩, some ⟨2023, 3, 21⟩⟩).loan_duration
        = some 3 ∧
    (enrichRow ⟨2024, 1, 1⟩ ⟨some ⟨2023, 3, 24⟩, some ⟨2023, 3, 21⟩⟩).book_checkout
        = some ⟨2023, 3, 21⟩ ∧
    (enrichRow ⟨2024, 1, 1⟩ ⟨some ⟨2023, 3, 24⟩, some ⟨2023, 3, 21⟩⟩).book_returned
        = some ⟨2023, 3, 24⟩ ∧
    (enrichRow ⟨2024, 1, 1⟩ ⟨some ⟨2023, 3, 24⟩, some ⟨2023, 3, 21⟩⟩).negative_duration_flag
        = false ∧
    "duration_was_swapped" ∉ dataEnrichAddedColumns := by
  decide

/-- Claim C4: before parsing, `dateCleaner` repairs exactly the three
specific impossible day/month shapes — `32/05`→`31/05`, `31/02`→`28/02`,
`31/04`→`30/04` (so `32/05/2023` parses to 2023-05-31, `31/02/2023` to
2023-02-28 and `31/04/2023` to 2023-04-30) — while any other date text
of shape `d/m/y` is left unrepaired; if its components do not form a
valid calendar date the strict `%d/%m/%Y` parse yields `none`; and
`dateCleaner` retains every row. -/
theorem C4_impossible_day_repair (s ds ms ys : Str) (df : List RawRow)
    (hsplit : splitOnChar '/' s = [ds, ms, ys])
    (hnorule : ¬ ((ds = "32".data ∧ ms = "05".data) ∨
                  (ds = "31".data ∧ ms = "02".data) ∨
                  (ds = "31".data ∧ ms = "04".data)))
    (hinvalid : isValidDate (strVal ys) (strVal ms) (strVal ds) = false) :
    fix_impossible s = s ∧
    parseDMY s = none ∧
    (repairDateText (some "32/05/2023".data)).bind parseDMY = some ⟨2023, 5, 31⟩ ∧
    (repairDateText (some "31/02/2023".data)).bind parseDMY = some ⟨2023, 2, 28⟩ ∧
    (repairDateText (some "31/04/2023".data)).bind parseDMY = some ⟨2023, 4, 30⟩ ∧
    (dateCleaner df).length = df.length := by
  push_neg at hnorule
  obtain ⟨h1, h2, h3⟩ := hnorule
  refine ⟨?_, ?_, by decide, by decide, by decide, by simp [dateCleaner]⟩
  · unfold fix_impossible
    rw [hsplit]
    dsimp only
    have e1 : (if ds = "32".data ∧ ms = "05".data then "31".data else ds) = ds :=
      if_neg (fun hand => h1 hand.1 hand.2)
    rw [e1]
    have e2 : (if ds = "31".data ∧ ms = "02".data then "28".data else ds) = ds :=
      if_neg (fun hand => h2 hand.1 hand.2)
    rw [e2]
    have e3 : (if ds = "31".data ∧ ms = "04".data then "30".data else ds) = ds :=
      if_neg (fun hand => h3 hand.1 hand.2)
    rw [e3]
    rw [← hsplit, joinSlash_splitOnChar]
  · unfold parseDMY
    rw [hsplit]
    dsimp only
    split
    · rw [hinvalid]
      simp
    · rfl

/-- Witness for C4 at the unrepaired invalid date `31/06/2023`. -/
theorem C4_impossible_day_repair_witness :
    fix_impossible "31/06/2023".data = "31/06/2023".data ∧
    parseDMY "31/06/2023".data = none ∧
    (repairDateText (some "32/05/2023".data)).bind parseDMY = some ⟨2023, 5, 31⟩ ∧
    (repairDateText (some "31/02/2023".data)).bind parseDMY = some ⟨2023, 2, 28⟩ ∧
    (repairDateText (some "31/04/2023".data)).bind parseDMY = some ⟨2023, 4, 30⟩ ∧
    (dateCleaner []).length = ([] : List RawRow).length :=
  C4_impossible_day_repair "31/06/2023".data "31".data "06".data "2023".data []
    (by decide) (by decide) (by decide)

/-- Claim C5: in `dateCleaner`'s year-typo substitution, every
occurrence of the substring `2063` and every occurrence of `2062` is
replaced by `2023` — no occurrence of either token survives the
substitution step — and in particular the input text `10/04/2063`
yields the parsed date 2023-04-10. -/
theorem C5_year_substitution (s : Str) :
    containsSub "2063".data (yearFix s) = false ∧
    containsSub "2062".data (yearFix s) = false ∧
    (repairDateText (some "10/04/2063".data)).bind parseDMY = some ⟨2023, 4, 10⟩ := by
  refine ⟨?_, ?_, by decide⟩
  · cases hv : containsSub ['2', '0', '6', '3'] (rep62 (rep63 s)) with
    | false => exact hv
    | true =>
      have h2 := contains63_rep62 (rep63 s) hv
      rw [contains63_rep63 s] at h2
      exact Bool.noConfusion h2
  · exact contains62_rep62 (rep63 s)

/-- Claim C6: `naCheck` drops a row exactly when both the book title and
the customer id are missing after normalisation — the title is missing
when null, empty, whitespace-only, or the tokens `nan`/`NaN`; the id is
missing when null or not coercible to a number — and keeps every other
row (in normalised form). -/
theorem C6_naCheck_drop_iff (df : List RawRow) :
    naCheck df = df.filterMap (fun r =>
      if titleMissingSpec r.books && custMissingSpec r.customer_id then none
      else some (naRow r)) := by
  rw [filterMap_if_none
    (fun r => titleMissingSpec r.books && custMissingSpec r.customer_id) naRow df]
  rw [naCheck, List.filter_map]
  have hfun : ((fun x : RawRow => !(x.books.isNone && x.customer_id.isNone)) ∘ naRow)
      = fun r : RawRow => !(titleMissingSpec r.books && custMissingSpec r.customer_id) := by
    funext r
    simp only [Function.comp]
    rw [show (naRow r).books = normTitle r.books from rfl,
        show (naRow r).customer_id = toNumericCell r.customer_id from rfl,
        normTitle_isNone, toNumericCell_isNone]
  rw [hfun]

/-- Claim C7: `duplicateCheck` is idempotent — a second application
removes no further rows, because the first keeps only the first
occurrence of each `(Books, Customer ID, Book checkout)` key. -/
theorem C7_duplicateCheck_idempotent (df : List RawRow) :
    duplicateCheck (duplicateCheck df) = duplicateCheck df := by
  unfold duplicateCheck
  refine dedupGo_eq_self _ _ (dedupGo_key_pairwise df []) ?_
  intro r _
  simp

/-- Claim C8: `calculate_totals` computes
`total_dropped = initial - final`; with `initial_rows = 0` it reports a
retention rate of 0 instead of dividing by zero, and the rate is never
negative — the computation is total, never raising. -/
theorem C8_metrics_totals (i f : Nat) :
    (calculate_totals i f).total_dropped = (i : Int) - (f : Int) ∧
    (calculate_totals 0 f).retention_rate = 0 ∧
    0 ≤ (calculate_totals i f).retention_rate := by
  refine ⟨rfl, rfl, ?_⟩
  simp only [calculate_totals]
  split
  · positivity
  · norm_num

/-- Claim C9 (counterexample): for input checkout text `10/04/2063`, the
audit column stores `10/04/2023` — the text after the year-typo repair —
not the pre-repair text, so the claim as stated is false. -/
theorem C9_counterexample :
    ¬ ((cleanRow ⟨some "b".data, some "1".data, some "10/04/2063".data, none⟩).book_checkout_raw
        = some "10/04/2063".data) := by
  decide

/-- Claim C9 (amended): for every row, `dateCleaner` retains the
repaired pre-parse date text (after quote-stripping, blank
normalisation, year-typo substitution and impossible-day correction,
immediately before datetime parsing) in an audit field alongside the
typed parsed date, for each of the two date fields. -/
theorem C9_raw_audit_amended (r : RawRow) :
    (cleanRow r).book_checkout_raw = repairDateText r.book_checkout ∧
    (cleanRow r).book_returned_raw = repairDateText r.book_returned ∧
    (cleanRow r).book_checkout = (repairDateText r.book_checkout).bind parseDMY ∧
    (cleanRow r).book_returned = (repairDateText r.book_returned).bind parseDMY :=
  ⟨rfl, rfl, rfl, rfl⟩

/-- Claim C10 (counterexample): a row with a null checkout date but a
present return date gets a null `overdue_days`, refuting the claim's
characterisation that `overdue_days` is null only when the return date
is null. -/
theorem C10_counterexample :
    ¬ ((enrichRow ⟨2024, 1, 1⟩ ⟨none, some ⟨2023, 3, 21⟩⟩).overdue_days = none →
       (enrichRow ⟨2024, 1, 1⟩ ⟨none, some ⟨2023, 3, 21⟩⟩).book_returned = none) := by
  decide

/-- Claim C10 (amended): after `dataEnrich`, `overdue_days` is null
exactly when the stored checkout date is null (the expected return date
is then null, whatever the return date), and every such row has
`is_overdue = false` — `is_overdue` is never true when `overdue_days`
is null. -/
theorem C10_overdue_flag_amended (today : Date) (df : List DateRow) (r : EnrichedRow)
    (hr : r ∈ dataEnrich today df) :
    (r.overdue_days = none ↔ r.book_checkout = none) ∧
    (r.overdue_days = none → r.is_overdue = false) := by
  obtain ⟨r0, _, rfl⟩ := List.mem_map.mp hr
  exact enrichRow_overdue_none today r0

/-- Witness for C10 at a concrete open-ended row (null checkout,
present return date). -/
theorem C10_overdue_flag_amended_witness :
    ((enrichRow ⟨2024, 1, 1⟩ ⟨none, some ⟨2023, 3, 21⟩⟩).overdue_days = none ↔
      (enrichRow ⟨2024, 1, 1⟩ ⟨none, some ⟨2023, 3, 21⟩⟩).book_checkout = none) ∧
    ((enrichRow ⟨2024, 1, 1⟩ ⟨none, some ⟨2023, 3, 21⟩⟩).overdue_days = none →
      (enrichRow ⟨2024, 1, 1⟩ ⟨none, some ⟨2023, 3, 21⟩⟩).is_overdue = false) :=
  C10_overdue_flag_amended ⟨2024, 1, 1⟩ [⟨none, some ⟨2023, 3, 21⟩⟩] _ (List.Mem.head _)

end LibPipeline
